import Mathlib

/-!
Verification development for the multi-provider data-fetch and caching layer of
the AkuGuard Telegram bot (`bot.py`, `cache.py`).

Modelling conventions used throughout:
* Python strings are Lean `String`s; `str.upper`/`str.lower`/`str.strip` are
  embedded character-wise for the ASCII range (the inputs exercised by the
  claims are ASCII).
* Python `float` values are modelled as `ℚ` and `time.time()` instants as `ℚ`;
  `sleep` is modelled as exact (the wake-up instant is start + duration).
* Python dicts that carry quote/weather records are modelled as association
  lists `List (String × PyVal)` in insertion order; dict truthiness is
  non-emptiness.
* HTTP calls are modelled by explicit response parameters: an adapter is a
  function of the (parsed) upstream response it would observe, and it returns
  the list of upstream requests it issues alongside its result.
-/

/-- A Python scalar value as it appears in the result dicts of `bot.py`:
either a number (`float`/`int` modelled as `ℚ`) or a string. -/
inductive PyVal where
  | num (q : ℚ)
  | str (s : String)
deriving DecidableEq

/-- A Python dict with string keys in insertion order. -/
abbrev PyDict := List (String × PyVal)

/-- Dict lookup `d[k]`: first binding of `k`, as in a Python dict
(association lists built by the model never duplicate keys). -/
def pyGet (d : PyDict) (k : String) : Option PyVal :=
  match d with
  | [] => none
  | (k2, v) :: rest => if k = k2 then some v else pyGet rest k

/-- Python `d.get(k, default)`. -/
def pyGetD (d : PyDict) (k : String) (default : PyVal) : PyVal :=
  (pyGet d k).getD default

/-- Python `k in d`. -/
def pyHasKey (d : PyDict) (k : String) : Bool :=
  (pyGet d k).isSome

/-- Python `v == 0` for a dict value (a string never equals the number 0). -/
def pyEqZero : PyVal → Bool
  | PyVal.num q => q = 0
  | PyVal.str _ => false

/-- Python `int(x)` on a float: truncation toward zero. -/
def pyTrunc (q : ℚ) : ℤ :=
  if 0 ≤ q then q.floor else q.ceil

/-- The whitespace characters stripped by Python `str.strip()`
(space, tab, newline, carriage return, vertical tab, form feed). -/
def pyIsSpace (c : Char) : Bool :=
  c.toNat = 32 ∨ c.toNat = 9 ∨ c.toNat = 10 ∨ c.toNat = 13 ∨ c.toNat = 11 ∨ c.toNat = 12

/-- Python `str.upper()` on one character (ASCII range). -/
def pyCharUpper (c : Char) : Char :=
  if 97 ≤ c.toNat ∧ c.toNat ≤ 122 then Char.ofNat (c.toNat - 32) else c

/-- Python `str.lower()` on one character (ASCII range). -/
def pyCharLower (c : Char) : Char :=
  if 65 ≤ c.toNat ∧ c.toNat ≤ 90 then Char.ofNat (c.toNat + 32) else c

/-- Python `str.upper()` (ASCII). -/
def pyUpper (s : String) : String :=
  ⟨s.data.map pyCharUpper⟩

/-- Python `str.lower()` (ASCII). -/
def pyLower (s : String) : String :=
  ⟨s.data.map pyCharLower⟩

/-- Python `str.strip()` on a character list: drop whitespace from both ends. -/
def pyStripList (l : List Char) : List Char :=
  List.rdropWhile pyIsSpace (List.dropWhile pyIsSpace l)

/-- Python `str.strip()`. -/
def pyStrip (s : String) : String :=
  ⟨pyStripList s.data⟩

/-- Python `needle in haystack` on character lists (substring test). -/
def listContainsSub (needle hay : List Char) : Bool :=
  hay.tails.any (fun t => needle.isPrefixOf t)

/-- Python `needle in haystack` for strings. -/
def pyContains (hay needle : String) : Bool :=
  listContainsSub needle.data hay.data

/-- Python `s.endswith(suffix)` via character lists. -/
def pyEndsWith (s suffix : String) : Bool :=
  suffix.data.isSuffixOf s.data

/-- Drop the last `n` characters of a string; models
`s.replace(suffix, "")` for a suffix of length `n` occurring only at the
end. -/
def pyDropRight (s : String) (n : ℕ) : String :=
  ⟨List.rdrop s.data n⟩

/-- Lookup in a static Python dict-literal table, keys compared left to right. -/
def tableGet (l : List (String × String)) (key : String) : Option String :=
  match l with
  | [] => none
  | (k, v) :: rest => if key = k then some v else tableGet rest key

/-- The `name_to_symbol` table of `normalize_symbol` (`bot.py` lines 192-228):
common company / crypto names mapped to tickers. -/
def name_to_symbol : List (String × String) :=
  [("APPLE", "AAPL"), ("TESLA", "TSLA"), ("MICROSOFT", "MSFT"),
   ("GOOGLE", "GOOGL"), ("ALPHABET", "GOOGL"), ("AMAZON", "AMZN"),
   ("FACEBOOK", "META"), ("META", "META"), ("NVIDIA", "NVDA"),
   ("NETFLIX", "NFLX"),
   ("BITCOIN", "BTC"), ("ETHEREUM", "ETH"), ("CARDANO", "ADA"),
   ("DOGECOIN", "DOGE"), ("SOLANA", "SOL"),
   ("COCA", "KO"), ("COCACOLA", "KO"), ("MCDONALD", "MCD"),
   ("MCDONALDS", "MCD"), ("DISNEY", "DIS"), ("WALMART", "WMT"),
   ("VISA", "V"), ("MASTERCARD", "MA"), ("PAYPAL", "PYPL"),
   ("INTEL", "INTC"), ("AMD", "AMD"), ("ORACLE", "ORCL"),
   ("UBER", "UBER"), ("AIRBNB", "ABNB"), ("ZOOM", "ZM")]

/-- The `crypto_mapping` table of `normalize_symbol` (`bot.py` lines 236-241):
crypto tickers paired with the USD market suffix. -/
def crypto_mapping : List (String × String) :=
  [("BTC", "BTC-USD"), ("ETH", "ETH-USD"), ("ADA", "ADA-USD"),
   ("DOT", "DOT-USD"), ("LINK", "LINK-USD"), ("LTC", "LTC-USD"),
   ("XRP", "XRP-USD"), ("DOGE", "DOGE-USD"), ("MATIC", "MATIC-USD"),
   ("SOL", "SOL-USD")]

/-- The alias-substitution and crypto-suffix core of `normalize_symbol`,
applied to the already uppercased-and-stripped symbol
(`bot.py` lines 230-243). -/
def normalize_core (u : String) : String :=
  let s2 := match tableGet name_to_symbol u with
    | some v => v
    | none => u
  match tableGet crypto_mapping s2 with
  | some v => v
  | none => s2

/-- Embeds `normalize_symbol` (`bot.py` lines 187-243): uppercase and strip the raw
input, substitute known name aliases, then apply the crypto market suffix. -/
def normalize_symbol (symbol : String) : String :=
  normalize_core (pyStrip (pyUpper symbol))

example : normalize_symbol "TESLA" = "TSLA" := by decide
example : normalize_symbol "  bitcoin " = "BTC-USD" := by decide
example : normalize_symbol "FOO" = "FOO" := by decide

/-!
## Rate limiter / backoff tracker (`SimpleCache`, `bot.py` lines 20-65)

The per-provider maps `last_request_time` and `rate_limit_backoff` are
modelled as functions `String → Option ℚ` (absent key = `none`).
`wait_for_rate_limit` returns the instant at which the call stops blocking
together with the updated state; `time.sleep` is exact and `time.time()`
after the sleeps is the returned instant.
-/

/-- The rate-limiting state of `SimpleCache` (`bot.py` lines 20-26).
`min_request_interval` is the hard-coded `8` in the source; it is kept as a
field so theorems can speak about the interval symbolically. -/
structure SimpleCacheRL where
  last_request_time : String → Option ℚ
  rate_limit_backoff : String → Option ℚ
  min_request_interval : ℚ

/-- Embeds `SimpleCache.wait_for_rate_limit` (`bot.py` lines 40-60).
`now` is the value of the first `time.time()` call.  The body first sleeps out
an active backoff window, then — not exclusively — sleeps out the remainder of
the minimum interval, computed from the elapsed time `now - last` measured at
entry, and finally records the current time as the new `last_request_time`.
Returns (instant at which the call returns, updated state). -/
def SimpleCacheRL.wait_for_rate_limit (s : SimpleCacheRL) (api_name : String)
    (now : ℚ) : ℚ × SimpleCacheRL :=
  let t1 : ℚ :=
    match s.rate_limit_backoff api_name with
    | some backoff_time => if now < backoff_time then backoff_time else now
    | none => now
  let t2 : ℚ :=
    match s.last_request_time api_name with
    | some last =>
        if now - last < s.min_request_interval then
          t1 + (s.min_request_interval - (now - last))
        else t1
    | none => t1
  (t2, { s with
          last_request_time := fun a =>
            if a = api_name then some t2 else s.last_request_time a })

/-- Embeds `SimpleCache.trigger_backoff` (`bot.py` lines 62-65):
sets `rate_limit_backoff[api_name] = now + backoff_seconds`. -/
def SimpleCacheRL.trigger_backoff (s : SimpleCacheRL) (api_name : String)
    (now : ℚ) (backoff_seconds : ℚ) : SimpleCacheRL :=
  { s with
    rate_limit_backoff := fun a =>
      if a = api_name then some (now + backoff_seconds)
      else s.rate_limit_backoff a }

/-- Modelled from the spec: the `wait_for_slot` algorithm as § 4.2 words it,
with step 2 an *else* branch of step 1 — if a backoff window is active the
call blocks exactly until that instant and the minimum-interval check is
skipped.  This is the comparison definition for claim C2; the code
(`SimpleCacheRL.wait_for_rate_limit`) applies both steps cumulatively. -/
def wait_for_slot_spec (s : SimpleCacheRL) (api_name : String)
    (now : ℚ) : ℚ × SimpleCacheRL :=
  let t : ℚ :=
    match s.rate_limit_backoff api_name with
    | some backoff_time =>
        if now < backoff_time then backoff_time
        else
          match s.last_request_time api_name with
          | some last =>
              if now - last < s.min_request_interval then
                now + (s.min_request_interval - (now - last))
              else now
          | none => now
    | none =>
        match s.last_request_time api_name with
        | some last =>
            if now - last < s.min_request_interval then
              now + (s.min_request_interval - (now - last))
            else now
        | none => now
  (t, { s with
        last_request_time := fun a =>
          if a = api_name then some t else s.last_request_time a })

/-!
## Response cache (`IntelligentCache`, `cache.py`)

`self.cache` is a Python dict in insertion order, modelled as an association
list.  `_generate_key` md5-hashes the string
`f"{namespace}:{args}:{sorted(kwargs.items())}"`; the hash is modelled as the
identity on its pre-image (deterministic, and collision-free by assumption),
so the key is the combined string itself.  Python floats `time.time()` / the
float products `max_size * 0.8` and `len * 0.2` are modelled as exact
rationals; `int(len * 0.2)` is `len / 5` in `ℕ` (they agree on the sizes a
dict can take).
-/

/-- Embeds `CacheEntry` (`cache.py` lines 13-29). -/
structure CacheEntry (α : Type) where
  data : α
  timestamp : ℚ
  ttl : ℚ
  access_count : ℕ
  last_access : ℚ
deriving DecidableEq

/-- Embeds `CacheEntry.is_expired` (`cache.py` lines 22-24):
`time.time() - self.timestamp > self.ttl`. -/
def CacheEntry.is_expired (e : CacheEntry α) (now : ℚ) : Bool :=
  e.ttl < now - e.timestamp

/-- Embeds `CacheEntry.touch` (`cache.py` lines 26-29). -/
def CacheEntry.touch (e : CacheEntry α) (now : ℚ) : CacheEntry α :=
  { e with access_count := e.access_count + 1, last_access := now }

/-- The `IntelligentCache` state (`cache.py` lines 31-43). -/
structure IntelligentCache (α : Type) where
  entries : List (String × CacheEntry α)
  max_size : ℕ
  hits : ℕ
  misses : ℕ
  evictions : ℕ
  cleanups : ℕ
deriving DecidableEq

/-- Embeds `IntelligentCache._generate_key` (`cache.py` lines 45-48) with the md5
hash modelled as the identity on its pre-image string. -/
def generate_key (ns query : String) : String :=
  ns ++ ":" ++ query

/-- Association-list lookup for the cache dict (first binding wins, as in a
Python dict; the model never duplicates keys). -/
def entryGet (l : List (String × CacheEntry α)) (key : String) :
    Option (CacheEntry α) :=
  match l with
  | [] => none
  | (k, e) :: rest => if key = k then some e else entryGet rest key

/-- In-place update of the entry stored under `key`
(Python mutates the `CacheEntry` object; the dict keeps its position). -/
def entryUpdate (l : List (String × CacheEntry α)) (key : String)
    (e : CacheEntry α) : List (String × CacheEntry α) :=
  l.map (fun kv => if kv.1 = key then (key, e) else kv)

/-- Python `self.cache[key] = entry`: replace in place if the key exists,
otherwise append (dicts keep insertion order). -/
def entryInsert (l : List (String × CacheEntry α)) (key : String)
    (e : CacheEntry α) : List (String × CacheEntry α) :=
  if l.any (fun kv => kv.1 = key) then entryUpdate l key e
  else l ++ [(key, e)]

/-- Python `del self.cache[key]`. -/
def entryDelete (l : List (String × CacheEntry α)) (key : String) :
    List (String × CacheEntry α) :=
  l.filter (fun kv => ¬(kv.1 = key))

/-- The sort key of `_cleanup` (`cache.py` line 104): ascending
`(access_count, last_access)` tuple order. -/
def entryLE (x y : String × CacheEntry α) : Bool :=
  x.2.access_count < y.2.access_count ∨
    (x.2.access_count = y.2.access_count ∧ x.2.last_access ≤ y.2.last_access)

/-- Embeds `IntelligentCache.get` (`cache.py` lines 50-68): returns the value (or
`None`) and the updated cache; expired entries are deleted on lookup, live
hits are `touch`ed. -/
def IntelligentCache.get (c : IntelligentCache α) (now : ℚ) (ns query : String) :
    Option α × IntelligentCache α :=
  let key := generate_key ns query
  match entryGet c.entries key with
  | none => (none, { c with misses := c.misses + 1 })
  | some e =>
      if e.is_expired now then
        (none, { c with entries := entryDelete c.entries key,
                        misses := c.misses + 1 })
      else
        (some e.data, { c with entries := entryUpdate c.entries key (e.touch now),
                               hits := c.hits + 1 })

/-- Embeds `IntelligentCache._cleanup` (`cache.py` lines 86-113): purge expired
entries, then if still over 80 % of capacity evict the lowest-ranked 20 %
(ascending access count, then ascending last access). -/
def IntelligentCache.cleanup' (c : IntelligentCache α) (now : ℚ) :
    IntelligentCache α :=
  let live := c.entries.filter (fun kv => ¬(kv.2.is_expired now))
  if 4 * c.max_size < 5 * live.length then
    let sorted_entries := live.mergeSort entryLE
    let to_remove := live.length / 5
    let victims := sorted_entries.take to_remove
    let remaining := live.filter (fun kv => ¬(victims.any (fun kv2 => kv2.1 = kv.1)))
    { c with entries := remaining,
             evictions := c.evictions + to_remove,
             cleanups := c.cleanups + 1 }
  else
    { c with entries := live, cleanups := c.cleanups + 1 }

/-- Embeds `IntelligentCache.set` (`cache.py` lines 70-84): run `_cleanup` when the
store has reached `max_size`, then store the fresh entry (timestamp and
last_access both `time.time()`, access count 0). -/
def IntelligentCache.set (c : IntelligentCache α) (now : ℚ) (ns query : String)
    (data : α) (ttl : ℚ) : IntelligentCache α :=
  let key := generate_key ns query
  let c1 := if c.max_size ≤ c.entries.length then c.cleanup' now else c
  { c1 with entries := entryInsert c1.entries key ⟨data, now, ttl, 0, now⟩ }

/-!
## Provider adapters and fetch orchestrator (`bot.py`)

Each adapter is embedded as a function of the provider response it would
observe; the parsed-float field values of the JSON body are passed directly
(`Option ℚ`: `none` = key absent).  An unparsable body or a raised exception
during quote extraction is a boolean flag, because either one lands in the
same fallback branch.  The adapter returns its result dict together with the
list of upstream HTTP requests it issues, so that theorems can speak about
which providers were actually called and with which credential.  Cache
lookups and `wait_for_rate_limit` gating at the top of each adapter are
abstracted into the `cacheHit` parameter; cache writes are not traced here.
-/

/-- Python `dict.get(k, default)` over a dict whose values are optional
strings: the default is returned only when the *key* is absent, not when the
stored value is `None`. -/
def pyDictGetD (d : List (String × Option String)) (k : String)
    (default : Option String) : Option String :=
  match d with
  | [] => default
  | (k2, v) :: rest => if k = k2 then v else pyDictGetD rest k default

/-- Embeds `CONFIG.get('TWELVE_API_KEY', 'demo')` (`bot.py` line 748) over
the relevant binding of the `CONFIG` dict literal (`bot.py` lines 73-82):
`CONFIG` always contains the key `'TWELVE_API_KEY'`, bound to
`os.environ.get('TWELVE_API_KEY')` — i.e. `None` when the variable is unset —
so `dict.get` returns the stored value and the `'demo'` default is dead
code; when unconfigured the request is issued with no credential
(`requests` drops a `None`-valued param). -/
def twelve_api_key (twelveKey : Option String) : Option String :=
  pyDictGetD [("TWELVE_API_KEY", twelveKey)] "TWELVE_API_KEY" (some "demo")

/-- One upstream HTTP request, tagged by provider and by the credential it
carries (`none` = the `apikey` param was `None` and is sent as no
credential). -/
inductive Req where
  | twelve (apikey : Option String)
  | alpha (apikey : String)
deriving DecidableEq

/-- Error dict of `get_stock_data_alphavantage` when no key is configured
(`bot.py` lines 301-303); returned before any upstream request. -/
def av_no_key_error : PyDict :=
  [("error", PyVal.str "❌ Alpha Vantage API key no configurada. Necesitas registrarte en alphavantage.co")]

/-- The quote dict built by the Alpha Vantage crypto path
(`bot.py` lines 350-365, and lines 382-397 with volume 0): note it carries
`year_high`/`year_low` (±20 % of the price) and no `day_high`/`day_low`/
`open_price`/`previous_close` keys. -/
def avCryptoQuote (normalized_symbol crypto_symbol : String)
    (current_price volume : ℚ) : PyDict :=
  [("symbol", PyVal.str normalized_symbol),
   ("name", PyVal.str (crypto_symbol ++ " (Cryptocurrency)")),
   ("current_price", PyVal.num current_price),
   ("currency", PyVal.str "USD"),
   ("daily_change", PyVal.num 0),
   ("daily_change_percent", PyVal.num 0),
   ("monthly_change_percent", PyVal.num 0),
   ("year_high", PyVal.num (current_price * (6 / 5))),
   ("year_low", PyVal.num (current_price * (4 / 5))),
   ("market_cap", PyVal.num 0),
   ("sector", PyVal.str "Cryptocurrency"),
   ("industry", PyVal.str "N/A"),
   ("volume", PyVal.num volume),
   ("avg_volume", PyVal.num 0)]

/-- The Alpha Vantage crypto-branch response (`bot.py` lines 326-399):
whether `Time Series (Digital Currency Daily)` is present (with the parsed
close and volume of the latest date), and failing that whether the
`CURRENCY_EXCHANGE_RATE` retry yields a rate. -/
structure AvCryptoResp where
  hasDigitalDaily : Bool
  latestClose : ℚ
  latestVolume : ℚ
  hasExchangeRate : Bool
  exchangeRate : ℚ
deriving DecidableEq

/-- Embeds `get_stock_data_alphavantage` (`bot.py` lines 280-569).  The equity
(non-`-USD`) branch is abstracted as the `equityPath` argument — no claim
exercises it; the crypto branch and the unconfigured-key early return are
embedded.  The exception handler maps the exhausted-crypto `ValueError` to
the generic Alpha Vantage error dict (lines 552-569). -/
def get_stock_data_alphavantage (alphaKey : Option String)
    (cacheHit : Option PyDict) (symbol : String) (resp : AvCryptoResp)
    (equityPath : PyDict × List Req) : PyDict × List Req :=
  match cacheHit with
  | some d => (d, [])
  | none =>
    match alphaKey with
    | none => (av_no_key_error, [])
    | some api_key =>
      let normalized := normalize_symbol symbol
      if pyEndsWith normalized "-USD" then
        let crypto_symbol := pyDropRight normalized 4
        if resp.hasDigitalDaily then
          (avCryptoQuote normalized crypto_symbol resp.latestClose resp.latestVolume,
           [Req.alpha api_key])
        else if resp.hasExchangeRate then
          (avCryptoQuote normalized crypto_symbol resp.exchangeRate 0,
           [Req.alpha api_key, Req.alpha api_key])
        else
          ([("error", PyVal.str ("📊 " ++ symbol ++ ": Error Alpha Vantage: Crypto data not available from Alpha Vantage..."))],
           [Req.alpha api_key, Req.alpha api_key])
      else
        equityPath

/-- The Twelve Data quote response (`bot.py` lines 777-822): HTTP status,
JSON parseability, presence of an error `message`, the parsed-float values of
the optional quote fields, and whether quote extraction raised. -/
structure TwelveResp where
  status : ℕ
  jsonOk : Bool
  hasMessage : Bool
  close : Option ℚ
  price : Option ℚ
  previous_close : Option ℚ
  high : Option ℚ
  low : Option ℚ
  openPx : Option ℚ
  volume : Option ℚ
  exc : Bool
deriving DecidableEq

/-- The quote dict built by `get_stock_data_twelve` on upstream success
(`bot.py` lines 824-849): every optional field defaults
(`day_high`/`day_low`/`open_price`/`previous_close` to `current_price`,
`volume` to 0, `sector`/`industry` to `"N/A"`). -/
def twelveQuote (normalized_symbol : String) (resp : TwelveResp) : PyDict :=
  let current_price := resp.close.getD (resp.price.getD 0)
  let previous_close := resp.previous_close.getD current_price
  let daily_change := if 0 < previous_close then current_price - previous_close else 0
  let daily_change_percent :=
    if 0 < previous_close then daily_change / previous_close * 100 else 0
  [("symbol", PyVal.str normalized_symbol),
   ("name", PyVal.str (normalized_symbol ++ " Inc.")),
   ("current_price", PyVal.num current_price),
   ("currency", PyVal.str "USD"),
   ("daily_change", PyVal.num daily_change),
   ("daily_change_percent", PyVal.num daily_change_percent),
   ("monthly_change_percent", PyVal.num 0),
   ("day_high", PyVal.num (resp.high.getD current_price)),
   ("day_low", PyVal.num (resp.low.getD current_price)),
   ("open_price", PyVal.num (resp.openPx.getD current_price)),
   ("previous_close", PyVal.num previous_close),
   ("market_cap", PyVal.num 0),
   ("sector", PyVal.str "N/A"),
   ("industry", PyVal.str "N/A"),
   ("volume", PyVal.num (pyTrunc (resp.volume.getD 0) : ℚ)),
   ("avg_volume", PyVal.num 0)]

/-- Embeds `get_stock_data_twelve` (`bot.py` lines 725-862).  Line 748 reads
the API key as `CONFIG.get('TWELVE_API_KEY', 'demo')`, which — because
`CONFIG` always contains that key — is the configured value, or `None` when
unset (see `twelve_api_key`).  Any upstream failure — non-200 status,
unparsable JSON, an error `message`, a body with neither `close` nor
`price`, or an exception — delegates to the Alpha Vantage adapter.  The
crypto branch differs only in the symbol sent upstream, which the request
trace does not record. -/
def get_stock_data_twelve (twelveKey alphaKey : Option String)
    (cacheHit avCacheHit : Option PyDict) (symbol : String)
    (resp : TwelveResp) (avResp : AvCryptoResp)
    (avEquityPath : PyDict × List Req) : PyDict × List Req :=
  match cacheHit with
  | some d => (d, [])
  | none =>
    let api_key := twelve_api_key twelveKey
    let fallback :=
      let av := get_stock_data_alphavantage alphaKey avCacheHit symbol avResp avEquityPath
      (av.1, Req.twelve api_key :: av.2)
    if resp.status ≠ 200 then fallback
    else if ¬resp.jsonOk then fallback
    else if resp.hasMessage then fallback
    else if resp.close = none ∧ resp.price = none then fallback
    else if resp.exc then fallback
    else (twelveQuote (normalize_symbol symbol) resp, [Req.twelve api_key])

/-- The configuration-error dict of the orchestrator (`bot.py` line 183). -/
def no_api_configured_error : PyDict :=
  [("error", PyVal.str "❌ No hay APIs financieras configuradas. Configura TWELVE_API_KEY o ALPHA_API_KEY.")]

/-- Embeds `get_stock_data` (`bot.py` lines 144-185), abstracted over the results of
the two sub-fetches: `twelve_data` is whatever `get_stock_data_twelve`
returns in the current environment (configured key or demo key), `alpha_data`
whatever `get_stock_data_alphavantage` returns.  Dict truthiness is
non-emptiness. -/
def get_stock_data (has_twelve_key has_alpha_key : Bool)
    (twelve_data alpha_data : PyDict) : PyDict :=
  if has_twelve_key then
    if twelve_data ≠ [] ∧ ¬pyHasKey twelve_data "error" ∧
        pyEqZero (pyGetD twelve_data "daily_change" (PyVal.num 0)) ∧
        pyEqZero (pyGetD twelve_data "volume" (PyVal.num 0)) ∧
        has_alpha_key then
      alpha_data
    else twelve_data
  else if has_alpha_key then alpha_data
  else if twelve_data ≠ [] ∧ pyHasKey twelve_data "error" then
    no_api_configured_error
  else twelve_data

/-!
## Weather fetch (`get_weather_data`, `bot.py` lines 1170-1298)

The upstream is abstracted as two oracles over the city-name query: the HTTP
status of `current.json`, and the weather record the iteration would build
from a 200 body (bodies are modelled well-formed; the secondary forecast call
only populates the `forecast` field and is folded into the record oracle).
The function returns the result, the trace of `current.json` queries issued,
and the cache write performed on success.
-/

/-- The hardcoded Córdoba variants (`bot.py` lines 1193-1198). -/
def cordoba_variants : List String :=
  ["Córdoba,Argentina", "Cordoba,Argentina", "Córdoba,AR", "Cordoba,AR"]

/-- The `city_variations` list as built by `bot.py` lines 1184-1208: the plain name,
name+country, name+ISO-code, then hardcoded variants for known ambiguous
Argentine city names. -/
def city_variations (city : String) : List String :=
  let base := [city, city ++ ",Argentina", city ++ ",AR"]
  let low := pyLower city
  if pyContains low "cordoba" ∨ pyContains low "córdoba" then
    base ++ cordoba_variants
  else if pyContains low "buenos aires" ∨ pyContains low "bsas" then
    base ++ ["Buenos Aires,Argentina", "Ciudad de Buenos Aires,Argentina",
             "CABA,Argentina"]
  else if pyContains low "mendoza" then
    base ++ ["Mendoza,Argentina"]
  else base

/-- Error dict when every variant is exhausted (`bot.py` line 1298). -/
def city_not_found_error (city : String) : PyDict :=
  [("error", PyVal.str ("Ciudad \x27" ++ city ++ "\x27 no encontrada. Intente con el nombre completo o agregue el país."))]

/-- Error dict when `WEATHER_API_KEY` is unset (`bot.py` line 1217). -/
def weather_not_configured_error : PyDict :=
  [("error", PyVal.str "❌ API de clima no configurada. Contacta al administrador.")]

/-- The retry loop of `get_weather_data` (`bot.py` lines 1210-1298): per
variant, check the key (config error if unset), issue the request, continue
on non-200, and on 200 cache and return the record.  Returns
(result, issued queries, cache write). -/
def weather_try (city : String) (hasKey : Bool) (status : String → ℕ)
    (record : String → PyDict) :
    List String → PyDict × List String × Option PyDict
  | [] => (city_not_found_error city, [], none)
  | v :: rest =>
      if ¬hasKey then (weather_not_configured_error, [], none)
      else if status v = 200 then (record v, [v], some (record v))
      else
        let r := weather_try city hasKey status record rest
        (r.1, v :: r.2.1, r.2.2)

/-- Embeds `get_weather_data` (`bot.py` lines 1170-1298): cache check, then the
variant retry loop. -/
def get_weather_data (city : String) (hasKey : Bool) (cacheHit : Option PyDict)
    (status : String → ℕ) (record : String → PyDict) :
    PyDict × List String × Option PyDict :=
  match cacheHit with
  | some d => (d, [], none)
  | none => weather_try city hasKey status record (city_variations city)

/-- Modelled from the claim's words (C9): the candidate order stated there —
"the plain name, then name+country, then the hardcoded Córdoba variants" —
with no name+ISO-code variant in between.  Comparison definition only. -/
def city_variations_claimed (city : String) : List String :=
  let base := [city, city ++ ",Argentina"]
  let low := pyLower city
  if pyContains low "cordoba" ∨ pyContains low "córdoba" then
    base ++ cordoba_variants
  else base

/-- Modelled from the claim's words (C9): `get_weather_data` over the
claim-stated candidate list.  Comparison definition only. -/
def get_weather_data_claimed (city : String) (hasKey : Bool)
    (cacheHit : Option PyDict) (status : String → ℕ)
    (record : String → PyDict) : PyDict × List String × Option PyDict :=
  match cacheHit with
  | some d => (d, [], none)
  | none => weather_try city hasKey status record (city_variations_claimed city)

/-!
## Theorems

Helper lemmas first, then one theorem per claim (with witnesses and
counterexamples where required).
-/

theorem pyGet_isSome_ne_nil {d : PyDict} {k : String}
    (h : pyHasKey d k = true) : d ≠ [] := by
  intro hnil
  subst hnil
  simp [pyHasKey, pyGet] at h

theorem entryGet_entryUpdate {α : Type} (l : List (String × CacheEntry α))
    (key : String) (e : CacheEntry α)
    (h : l.any (fun kv => kv.1 = key) = true) :
    entryGet (entryUpdate l key e) key = some e := by
  induction l with
  | nil => simp at h
  | cons kv rest ih =>
      obtain ⟨k2, e2⟩ := kv
      simp only [entryUpdate, List.map_cons]
      by_cases hk : k2 = key
      · subst hk
        rw [if_pos rfl]
        simp [entryGet]
      · rw [if_neg hk]
        simp only [List.any_cons, Bool.or_eq_true, decide_eq_true_eq] at h
        rcases h with h | h
        · exact absurd h hk
        · have h2 := ih h
          simp only [entryUpdate] at h2
          simpa [entryGet, Ne.symm hk] using h2

theorem entryGet_append_single {α : Type} (l : List (String × CacheEntry α))
    (key : String) (e : CacheEntry α)
    (h : l.any (fun kv => kv.1 = key) = false) :
    entryGet (l ++ [(key, e)]) key = some e := by
  induction l with
  | nil => simp [entryGet]
  | cons kv rest ih =>
      simp only [List.any_cons, Bool.or_eq_false_iff, decide_eq_false_iff_not] at h
      simpa [entryGet, Ne.symm h.1] using ih h.2

theorem entryGet_entryInsert {α : Type} (l : List (String × CacheEntry α))
    (key : String) (e : CacheEntry α) :
    entryGet (entryInsert l key e) key = some e := by
  unfold entryInsert
  by_cases h : l.any (fun kv => kv.1 = key) = true
  · simp only [h, if_true]
    exact entryGet_entryUpdate l key e h
  · simp only [Bool.not_eq_true] at h
    simp only [h, Bool.false_eq_true, if_false]
    exact entryGet_append_single l key e h

theorem entryGet_entryDelete {α : Type} (l : List (String × CacheEntry α))
    (key : String) : entryGet (entryDelete l key) key = none := by
  induction l with
  | nil => simp [entryDelete, entryGet]
  | cons kv rest ih =>
      by_cases hk : kv.1 = key
      · simpa [entryDelete, hk] using ih
      · simpa [entryDelete, entryGet, hk, Ne.symm hk] using ih

/-- C5: cache round-trip — for every prior cache state, namespace, query,
value and every ttl > 0, a `set` followed immediately (same clock instant)
by a `get` of the same namespace and query returns the stored value. -/
theorem cache_set_get_roundtrip {α : Type} (c : IntelligentCache α) (now : ℚ)
    (ns query : String) (v : α) (ttl : ℚ) (h : 0 < ttl) :
    ((c.set now ns query v ttl).get now ns query).1 = some v := by
  have hlook :=
    entryGet_entryInsert
      ((if c.max_size ≤ c.entries.length then c.cleanup' now else c).entries)
      (generate_key ns query) (⟨v, now, ttl, 0, now⟩ : CacheEntry α)
  have hexp : (CacheEntry.is_expired (⟨v, now, ttl, 0, now⟩ : CacheEntry α) now) = false := by
    simp only [CacheEntry.is_expired, decide_eq_false_iff_not, not_lt]
    linarith
  unfold IntelligentCache.set IntelligentCache.get
  simp [hlook, hexp]

/-- Witness for C5 at a concrete input. -/
theorem cache_set_get_roundtrip_witness :
    (((⟨[], 1000, 0, 0, 0, 0⟩ : IntelligentCache String).set 0 "stock_twelve" "AAPL"
        "quote" 900).get 0 "stock_twelve" "AAPL").1 = some "quote" :=
  cache_set_get_roundtrip ⟨[], 1000, 0, 0, 0, 0⟩ 0 "stock_twelve" "AAPL" "quote" 900
    (by norm_num)

/-- C4 (counterexample): with an entry of ttl 10 stored at time 0, a `get`
at time 10 — exactly ttl seconds later — still returns the value instead of
`None`, because `is_expired` uses a strict `>` comparison. -/
theorem cache_expiry_boundary_counterexample :
    (((⟨[(generate_key "weather" "cordoba", ⟨"sunny", 0, 10, 0, 0⟩)],
          1000, 0, 0, 0, 0⟩ :
        IntelligentCache String).get 10 "weather" "cordoba").1 = some "sunny") ∧
      (10 : ℚ) - 0 ≥ 10 := by
  have hlt : ¬((10 : ℚ) < 10 - 0) := by norm_num
  refine ⟨?_, by norm_num⟩
  simp [IntelligentCache.get, entryGet, CacheEntry.is_expired, CacheEntry.touch, hlt]

/-- C4 (amended): an entry is visible only while `now - timestamp ≤ ttl`;
a `get` performed once *strictly more* than ttl seconds have elapsed returns
`None` and removes the entry from the store. -/
theorem cache_get_expired {α : Type} (c : IntelligentCache α) (now : ℚ)
    (ns query : String) (e : CacheEntry α)
    (hfound : entryGet c.entries (generate_key ns query) = some e)
    (hexp : e.ttl < now - e.timestamp) :
    (c.get now ns query).1 = none ∧
      entryGet (c.get now ns query).2.entries (generate_key ns query) = none := by
  have hb : e.is_expired now = true := by
    simp only [CacheEntry.is_expired, decide_eq_true_eq]
    exact hexp
  unfold IntelligentCache.get
  simp [hfound, hb, entryGet_entryDelete]

/-- Witness for C4 (amended) at a concrete input. -/
theorem cache_get_expired_witness :
    (((⟨[(generate_key "weather" "cordoba", ⟨"sunny", 0, 10, 0, 0⟩)],
          1000, 0, 0, 0, 0⟩ :
        IntelligentCache String).get 11 "weather" "cordoba").1 = none) ∧
      entryGet ((⟨[(generate_key "weather" "cordoba", ⟨"sunny", 0, 10, 0, 0⟩)],
          1000, 0, 0, 0, 0⟩ :
        IntelligentCache String).get 11 "weather" "cordoba").2.entries
        (generate_key "weather" "cordoba") = none :=
  cache_get_expired
    ⟨[(generate_key "weather" "cordoba", ⟨"sunny", 0, 10, 0, 0⟩)], 1000, 0, 0, 0, 0⟩
    11 "weather" "cordoba" ⟨"sunny", 0, 10, 0, 0⟩ (by simp [entryGet])
    (by norm_num)

/-- C1: with the primary (Twelve Data) key configured, `get_stock_data`
returns the secondary (Alpha Vantage) result exactly when the primary result
is truthy, not error-tagged, has `daily_change == 0` and `volume == 0`, and
the secondary key is configured; in every other configured-primary case it
returns the primary result. -/
theorem get_stock_data_zero_fallback (has_alpha_key : Bool)
    (twelve_data alpha_data : PyDict) :
    ((twelve_data ≠ [] ∧ ¬pyHasKey twelve_data "error" ∧
        pyEqZero (pyGetD twelve_data "daily_change" (PyVal.num 0)) ∧
        pyEqZero (pyGetD twelve_data "volume" (PyVal.num 0)) ∧
        has_alpha_key = true) →
      get_stock_data true has_alpha_key twelve_data alpha_data = alpha_data) ∧
    (¬(twelve_data ≠ [] ∧ ¬pyHasKey twelve_data "error" ∧
        pyEqZero (pyGetD twelve_data "daily_change" (PyVal.num 0)) ∧
        pyEqZero (pyGetD twelve_data "volume" (PyVal.num 0)) ∧
        has_alpha_key = true) →
      get_stock_data true has_alpha_key twelve_data alpha_data = twelve_data) := by
  constructor
  · intro h
    simp [get_stock_data, h.1, h.2.1, h.2.2.1, h.2.2.2.1, h.2.2.2.2]
  · intro h
    unfold get_stock_data
    rw [if_pos rfl, if_neg]
    intro hc
    exact h ⟨hc.1, hc.2.1, hc.2.2.1, hc.2.2.2.1, by simpa using hc.2.2.2.2⟩

/-- Witness for C1: a primary result with zero change and zero volume is
replaced by the secondary result. -/
theorem get_stock_data_zero_fallback_witness :
    get_stock_data true true
      [("current_price", PyVal.num 5), ("daily_change", PyVal.num 0),
       ("volume", PyVal.num 0)]
      [("current_price", PyVal.num 7)] = [("current_price", PyVal.num 7)] :=
  (get_stock_data_zero_fallback true
      [("current_price", PyVal.num 5), ("daily_change", PyVal.num 0),
       ("volume", PyVal.num 0)]
      [("current_price", PyVal.num 7)]).1
    (by refine ⟨by decide, by decide, by decide, by decide, rfl⟩)

/-- C7 (counterexample): the unconfigured path never uses a public/demo
credential.  `CONFIG` (`bot.py` lines 73-82) always contains the key
`'TWELVE_API_KEY'` — bound to `None` when the variable is unset — so
`CONFIG.get('TWELVE_API_KEY', 'demo')` at line 748 returns `None`, never
`'demo'`, and the single upstream request of the unconfigured path carries
no credential. -/
theorem demo_credential_counterexample :
    twelve_api_key none = none ∧
      (get_stock_data_twelve none none none none "AAPL"
        ⟨404, true, false, none, none, none, none, none, none, none, false⟩
        ⟨false, 0, 0, false, 0⟩ ([], [])).2 = [Req.twelve none] ∧
      Req.twelve none ≠ Req.twelve (some "demo") := by
  refine ⟨rfl, ?_, by simp⟩
  decide

/-- C7 (amended): when neither provider key is configured and no quote is
cached, `get_stock_data` still calls the high-quota provider, but with no
credential at all — `CONFIG` always contains the `TWELVE_API_KEY` entry
(`None` when unset), so the `'demo'` default of
`CONFIG.get('TWELVE_API_KEY', 'demo')` is dead code; the adapter chain
issues exactly that one uncredentialed upstream request (the unconfigured
Alpha Vantage fallback returns its error before any request), and whenever
the chain yields an error-tagged result, the orchestrator returns the
configuration-error result instructing the operator to set a provider
key. -/
theorem get_stock_data_unconfigured_degradation (symbol : String)
    (resp : TwelveResp) (avResp : AvCryptoResp) (avCacheHit : Option PyDict)
    (avEquityPath : PyDict × List Req) :
    (get_stock_data_twelve none none none avCacheHit symbol resp avResp
        avEquityPath).2 = [Req.twelve none] ∧
      (pyHasKey
          (get_stock_data_twelve none none none avCacheHit symbol resp avResp
            avEquityPath).1 "error" = true →
        get_stock_data false false
          (get_stock_data_twelve none none none avCacheHit symbol resp avResp
            avEquityPath).1 [] = no_api_configured_error) := by
  have hav : ∀ hit, get_stock_data_alphavantage none hit symbol avResp avEquityPath =
      ((match hit with | some d => d | none => av_no_key_error), []) := by
    intro hit
    cases hit <;> simp [get_stock_data_alphavantage]
  constructor
  · unfold get_stock_data_twelve
    simp only [hav]
    split_ifs <;> rfl
  · intro herr
    have hne :=
      pyGet_isSome_ne_nil (d := (get_stock_data_twelve none none none avCacheHit
        symbol resp avResp avEquityPath).1) (k := "error") herr
    unfold get_stock_data
    rw [if_neg (by simp), if_neg (by simp), if_pos ⟨hne, herr⟩]

/-- Witness for C7 (amended): a failed uncredentialed upstream call
(HTTP 404) produces the configuration-error result, with the single
credential-less request as the only upstream call. -/
theorem get_stock_data_unconfigured_degradation_witness :
    (get_stock_data_twelve none none none none "AAPL"
        ⟨404, true, false, none, none, none, none, none, none, none, false⟩
        ⟨false, 0, 0, false, 0⟩ ([], [])).2 = [Req.twelve none] ∧
      get_stock_data false false
        (get_stock_data_twelve none none none none "AAPL"
          ⟨404, true, false, none, none, none, none, none, none, none, false⟩
          ⟨false, 0, 0, false, 0⟩ ([], [])).1 [] = no_api_configured_error :=
  ⟨(get_stock_data_unconfigured_degradation "AAPL"
      ⟨404, true, false, none, none, none, none, none, none, none, false⟩
      ⟨false, 0, 0, false, 0⟩ none ([], [])).1,
   (get_stock_data_unconfigured_degradation "AAPL"
      ⟨404, true, false, none, none, none, none, none, none, none, false⟩
      ⟨false, 0, 0, false, 0⟩ none ([], [])).2
     (by decide)⟩

/-- C6: `normalize_symbol` is total (a Lean function on all of `String`);
the known aliases map to their documented tickers, a crypto ticker obtained
by substitution receives the `-USD` market suffix, and any input whose
uppercased-and-stripped form is in neither table passes through as exactly
that uppercased-and-stripped form. -/
theorem normalize_symbol_aliases :
    normalize_symbol "TESLA" = "TSLA" ∧
      normalize_symbol "BITCOIN" = "BTC-USD" ∧
      normalize_symbol "APPLE" = "AAPL" ∧
      ∀ s : String,
        tableGet name_to_symbol (pyStrip (pyUpper s)) = none →
        tableGet crypto_mapping (pyStrip (pyUpper s)) = none →
        normalize_symbol s = pyStrip (pyUpper s) := by
  refine ⟨by decide, by decide, by decide, ?_⟩
  intro s h1 h2
  simp [normalize_symbol, normalize_core, h1, h2]

/-- Witness for C6: an unknown ticker passes through unchanged. -/
theorem normalize_symbol_aliases_witness :
    normalize_symbol "ZZZQ" = "ZZZQ" := by
  have h := normalize_symbol_aliases.2.2.2 "ZZZQ" (by decide) (by decide)
  simpa using h

theorem weather_try_first (city : String) (status : String → ℕ)
    (record : String → PyDict) (pre : List String) (v : String)
    (post : List String) (hpre : ∀ u ∈ pre, status u ≠ 200)
    (hv : status v = 200) :
    weather_try city true status record (pre ++ v :: post) =
      (record v, pre ++ [v], some (record v)) := by
  induction pre with
  | nil => simp [weather_try, hv]
  | cons u rest ih =>
      have hu : status u ≠ 200 := hpre u (by simp)
      have ih2 := ih (fun x hx => hpre x (by simp [hx]))
      simp [weather_try, hu, ih2]

theorem weather_try_exhausted (city : String) (status : String → ℕ)
    (record : String → PyDict) (l : List String)
    (hall : ∀ u ∈ l, status u ≠ 200) :
    weather_try city true status record l =
      (city_not_found_error city, l, none) := by
  induction l with
  | nil => simp [weather_try]
  | cons u rest ih =>
      have hu : status u ≠ 200 := hall u (by simp)
      have ih2 := ih (fun x hx => hall x (by simp [hx]))
      simp [weather_try, hu, ih2]

/-- C9 (counterexample): the code's third candidate for `"Cordoba"` is the
name+ISO-code variant `"Cordoba,AR"`, not a hardcoded Córdoba variant as the
claim orders them.  With an upstream that answers 200 for `"Cordoba,AR"` and
for `"Córdoba,Argentina"` and 404 otherwise, the code returns the
`"Cordoba,AR"` record after three attempts, while the claim's candidate
order would return the `"Córdoba,Argentina"` record. -/
theorem weather_variant_order_counterexample :
    ((get_weather_data "Cordoba" true none
        (fun q => if q = "Cordoba,AR" ∨ q = "Córdoba,Argentina" then 200 else 404)
        (fun q => [("city", PyVal.str q)])).2.1 =
      ["Cordoba", "Cordoba,Argentina", "Cordoba,AR"]) ∧
      ((get_weather_data "Cordoba" true none
        (fun q => if q = "Cordoba,AR" ∨ q = "Córdoba,Argentina" then 200 else 404)
        (fun q => [("city", PyVal.str q)])).1 =
        [("city", PyVal.str "Cordoba,AR")]) ∧
      ((get_weather_data_claimed "Cordoba" true none
        (fun q => if q = "Cordoba,AR" ∨ q = "Córdoba,Argentina" then 200 else 404)
        (fun q => [("city", PyVal.str q)])).1 =
        [("city", PyVal.str "Córdoba,Argentina")]) ∧
      ("Cordoba,AR" : String) ≠ "Córdoba,Argentina" := by
  refine ⟨?_, ?_, ?_, ?_⟩ <;> decide

/-- C9 (amended): for an uncached city with the weather key configured,
`get_weather_data` tries the candidate queries in order — the plain name,
name+country, then name+ISO-code (`"Cordoba,AR"`), then the hardcoded
Córdoba variants — returning and caching the record of the first variant
whose upstream call returns HTTP 200, and returning the not-found error
result only when all variants are exhausted. -/
theorem get_weather_data_first_200 :
    (city_variations "Cordoba" =
      ["Cordoba", "Cordoba,Argentina", "Cordoba,AR", "Córdoba,Argentina",
       "Cordoba,Argentina", "Córdoba,AR", "Cordoba,AR"]) ∧
      (∀ (city : String) (status : String → ℕ) (record : String → PyDict)
        (pre : List String) (v : String) (post : List String),
        city_variations city = pre ++ v :: post →
        (∀ u ∈ pre, status u ≠ 200) → status v = 200 →
        get_weather_data city true none status record =
          (record v, pre ++ [v], some (record v))) ∧
      (∀ (city : String) (status : String → ℕ) (record : String → PyDict),
        (∀ u ∈ city_variations city, status u ≠ 200) →
        get_weather_data city true none status record =
          (city_not_found_error city, city_variations city, none)) := by
  refine ⟨by decide, ?_, ?_⟩
  · intro city status record pre v post hsplit hpre hv
    unfold get_weather_data
    rw [hsplit]
    exact weather_try_first city status record pre v post hpre hv
  · intro city status record hall
    unfold get_weather_data
    exact weather_try_exhausted city status record (city_variations city) hall

/-- Witness for C9 (amended): for `"Cordoba"` with only `"Cordoba,AR"`
answering 200, the code returns (and caches) that record after attempting
the first two variants. -/
theorem get_weather_data_first_200_witness :
    get_weather_data "Cordoba" true none
        (fun q => if q = "Cordoba,AR" then 200 else 404)
        (fun q => [("city", PyVal.str q)]) =
      ([("city", PyVal.str "Cordoba,AR")],
       ["Cordoba", "Cordoba,Argentina", "Cordoba,AR"],
       some [("city", PyVal.str "Cordoba,AR")]) := by
  have h := get_weather_data_first_200.2.1 "Cordoba"
    (fun q => if q = "Cordoba,AR" then 200 else 404)
    (fun q => [("city", PyVal.str q)])
    ["Cordoba", "Cordoba,Argentina"] "Cordoba,AR"
    ["Córdoba,Argentina", "Cordoba,Argentina", "Córdoba,AR", "Cordoba,AR"]
    (by decide) (by decide) (by decide)
  simpa using h

theorem entryLE_trans {α : Type} (a b c : String × CacheEntry α)
    (hab : entryLE a b = true) (hbc : entryLE b c = true) :
    entryLE a c = true := by
  simp only [entryLE, decide_eq_true_eq] at hab hbc ⊢
  rcases hab with h | ⟨h1, h2⟩ <;> rcases hbc with g | ⟨g1, g2⟩
  · exact Or.inl (h.trans g)
  · exact Or.inl (g1 ▸ h)
  · exact Or.inl (h1 ▸ g)
  · exact Or.inr ⟨h1.trans g1, h2.trans g2⟩

theorem entryLE_total {α : Type} (a b : String × CacheEntry α) :
    (entryLE a b || entryLE b a) = true := by
  simp only [entryLE, Bool.or_eq_true, decide_eq_true_eq]
  rcases Nat.lt_trichotomy a.2.access_count b.2.access_count with h | h | h
  · exact Or.inl (Or.inl h)
  · rcases le_total a.2.last_access b.2.last_access with g | g
    · exact Or.inl (Or.inr ⟨h, g⟩)
    · exact Or.inr (Or.inr ⟨h.symm, g⟩)
  · exact Or.inr (Or.inl h)

theorem length_filter_bool_split {β : Type} (l : List β) (P : β → Bool) :
    (l.filter (fun a => !(P a))).length + (l.filter P).length = l.length := by
  induction l with
  | nil => simp
  | cons a rest ih =>
      cases h : P a <;> simp [List.filter_cons, h] <;> omega

theorem mem_eq_of_keys_nodup {α : Type} {l : List (String × CacheEntry α)}
    (hnodup : (l.map Prod.fst).Nodup) {k : String} {e : CacheEntry α}
    (hmem : (k, e) ∈ l) {kv : String × CacheEntry α} (hkv : kv ∈ l)
    (hkey : kv.1 = k) : kv = (k, e) := by
  induction l with
  | nil => simp at hmem
  | cons x rest ih =>
      simp only [List.map_cons, List.nodup_cons] at hnodup
      rcases List.mem_cons.mp hmem with hm | hm <;>
        rcases List.mem_cons.mp hkv with hv | hv
      · rw [hv, ← hm]
      · exfalso
        apply hnodup.1
        have h1 : kv.1 ∈ List.map Prod.fst rest := List.mem_map_of_mem Prod.fst hv
        rw [hkey] at h1
        rw [← hm]
        exact h1
      · exfalso
        apply hnodup.1
        have h1 : (k, e).1 ∈ List.map Prod.fst rest :=
          List.mem_map_of_mem Prod.fst hm
        rw [hv] at hkey
        rw [hkey]
        exact h1
      · exact ih hnodup.2 hm hv

theorem entryGet_filter_none {α : Type} (l : List (String × CacheEntry α))
    (key : String) (p : String × CacheEntry α → Bool)
    (hp : ∀ kv, kv.1 = key → p kv = false) :
    entryGet (l.filter p) key = none := by
  induction l with
  | nil => simp [entryGet]
  | cons kv rest ih =>
      obtain ⟨k2, e2⟩ := kv
      cases hpv : p (k2, e2)
      · simpa [List.filter_cons, hpv] using ih
      · have hk : ¬(key = k2) := by
          intro hc
          have h2 := hp (k2, e2) (by simp [hc.symm])
          rw [h2] at hpv
          exact Bool.false_ne_true hpv
        simp only [List.filter_cons, hpv, if_true]
        simp only [entryGet, if_neg hk]
        exact ih

theorem entryGet_entryUpdate_ne {α : Type} (l : List (String × CacheEntry α))
    (k key : String) (e : CacheEntry α) (hne : ¬(key = k)) :
    entryGet (entryUpdate l k e) key = entryGet l key := by
  induction l with
  | nil => simp [entryUpdate]
  | cons kv rest ih =>
      obtain ⟨k2, e2⟩ := kv
      simp only [entryUpdate, List.map_cons]
      by_cases hk2 : k2 = k
      · subst hk2
        rw [if_pos rfl]
        simp only [entryGet, if_neg hne]
        simpa [entryUpdate] using ih
      · rw [if_neg hk2]
        by_cases hkey2 : key = k2
        · simp [entryGet, hkey2]
        · simp only [entryGet, if_neg hkey2]
          simpa [entryUpdate] using ih

theorem entryGet_append_single_ne {α : Type} (l : List (String × CacheEntry α))
    (k key : String) (e : CacheEntry α) (hne : ¬(key = k)) :
    entryGet (l ++ [(k, e)]) key = entryGet l key := by
  induction l with
  | nil => simp [entryGet, if_neg hne]
  | cons kv rest ih =>
      obtain ⟨k2, e2⟩ := kv
      by_cases hkey2 : key = k2
      · simp [entryGet, hkey2]
      · simp only [List.cons_append, entryGet, if_neg hkey2]
        exact ih

theorem entryGet_entryInsert_ne {α : Type} (l : List (String × CacheEntry α))
    (k key : String) (e : CacheEntry α) (hne : k ≠ key) :
    entryGet (entryInsert l k e) key = entryGet l key := by
  have hne2 : ¬(key = k) := fun hc => hne hc.symm
  unfold entryInsert
  split_ifs
  · exact entryGet_entryUpdate_ne l k key e hne2
  · exact entryGet_append_single_ne l k key e hne2

theorem length_entryInsert_le {α : Type} (l : List (String × CacheEntry α))
    (key : String) (e : CacheEntry α) :
    (entryInsert l key e).length ≤ l.length + 1 := by
  unfold entryInsert
  split_ifs
  · simp [entryUpdate]
  · simp

theorem mergeSort_strict_min_head {α : Type} (l : List (String × CacheEntry α))
    (x : String × CacheEntry α) (hx : x ∈ l)
    (hmin : ∀ y ∈ l, y ≠ x → entryLE y x = false) :
    ∃ tl, l.mergeSort entryLE = x :: tl := by
  have hperm := List.mergeSort_perm l entryLE
  have hsorted := List.sorted_mergeSort entryLE_trans entryLE_total l
  cases hms : l.mergeSort entryLE with
  | nil =>
      exfalso
      have hxin : x ∈ l.mergeSort entryLE := hperm.mem_iff.mpr hx
      rw [hms] at hxin
      simp at hxin
  | cons h t =>
      by_cases hhx : h = x
      · subst hhx
        exact ⟨t, rfl⟩
      · exfalso
        have hxin : x ∈ h :: t := by
          rw [← hms]
          exact hperm.mem_iff.mpr hx
        have hxt : x ∈ t := by
          rcases List.mem_cons.mp hxin with hc | hc
          · exact absurd hc.symm hhx
          · exact hc
        rw [hms] at hsorted
        have hLE : entryLE h x = true := List.rel_of_pairwise_cons hsorted hxt
        have hhl : h ∈ l := hperm.mem_iff.mp (by
          rw [hms]
          exact List.mem_cons_self h t)
        rw [hmin h hhl hhx] at hLE
        exact Bool.false_ne_true hLE

theorem cleanup_length_bound {α : Type} (c : IntelligentCache α) (now : ℚ)
    (hm : 5 ≤ c.max_size)
    (hnodup : (c.entries.map Prod.fst).Nodup)
    (hlen : c.entries.length ≤ c.max_size) :
    (c.cleanup' now).entries.length + 1 ≤ c.max_size := by
  have hentnodup : c.entries.Nodup := List.Nodup.of_map _ hnodup
  unfold IntelligentCache.cleanup'
  simp only []
  split_ifs with hth
  · simp only []
    set live := c.entries.filter (fun kv => ¬(kv.2.is_expired now)) with hlivedef
    set sorted := live.mergeSort entryLE with hsorteddef
    set t := live.length / 5 with htdef
    set victims := sorted.take t with hvicdef
    have hlive_le : live.length ≤ c.entries.length := by
      rw [hlivedef]
      exact List.length_filter_le _ _
    have hperm := List.mergeSort_perm live entryLE
    have hlivenodup : live.Nodup := by
      rw [hlivedef]
      exact (List.filter_sublist _).nodup hentnodup
    have hsortednodup : sorted.Nodup := hperm.nodup_iff.mpr hlivenodup
    have hvicnodup : victims.Nodup := (List.take_sublist _ _).nodup hsortednodup
    have hviclen : victims.length = t := by
      rw [hvicdef, List.length_take, hperm.length_eq]
      exact min_eq_left (Nat.div_le_self _ _)
    have hsub : victims ⊆
        live.filter (fun kv => victims.any (fun kv2 => kv2.1 = kv.1)) := by
      intro v hv
      have hvsorted : v ∈ sorted := (List.take_sublist _ _).subset hv
      have hvlive : v ∈ live := hperm.mem_iff.mp hvsorted
      refine List.mem_filter.mpr ⟨hvlive, ?_⟩
      simp only [List.any_eq_true, decide_eq_true_eq]
      exact ⟨v, hv, rfl⟩
    have hcount : t ≤
        (live.filter (fun kv => victims.any (fun kv2 => kv2.1 = kv.1))).length := by
      calc t = victims.length := hviclen.symm
        _ ≤ _ := (List.subperm_of_subset hvicnodup hsub).length_le
    have hsplit := length_filter_bool_split live
      (fun kv => victims.any (fun kv2 => kv2.1 = kv.1))
    have hbridge : (fun kv : String × CacheEntry α =>
        (¬(victims.any (fun kv2 => kv2.1 = kv.1)) : Bool)) =
        (fun kv => !(victims.any (fun kv2 => kv2.1 = kv.1))) := by
      funext kv
      simp
    rw [hbridge]
    have hlive5 : 5 ≤ live.length := by omega
    have ht1 : 1 ≤ t := by
      rw [htdef]
      omega
    omega
  · simp only []
    have hlive_le : (c.entries.filter
        (fun kv => ¬(kv.2.is_expired now))).length ≤ c.entries.length :=
      List.length_filter_le _ _
    omega

theorem set_length_le {α : Type} (c : IntelligentCache α) (now : ℚ)
    (ns query : String) (v : α) (ttl : ℚ) (hm : 5 ≤ c.max_size)
    (hnodup : (c.entries.map Prod.fst).Nodup)
    (hlen : c.entries.length ≤ c.max_size) :
    (c.set now ns query v ttl).entries.length ≤ c.max_size := by
  unfold IntelligentCache.set
  simp only []
  by_cases hcap : c.max_size ≤ c.entries.length
  · rw [if_pos hcap]
    have hins := length_entryInsert_le (c.cleanup' now).entries
      (generate_key ns query) (⟨v, now, ttl, 0, now⟩ : CacheEntry α)
    have hcl := cleanup_length_bound c now hm hnodup hlen
    omega
  · rw [if_neg hcap]
    have hins := length_entryInsert_le c.entries
      (generate_key ns query) (⟨v, now, ttl, 0, now⟩ : CacheEntry α)
    omega

theorem cleanup_keeps_top_ranked {α : Type} (c : IntelligentCache α) (now : ℚ)
    (k : String) (e : CacheEntry α)
    (hnodup : (c.entries.map Prod.fst).Nodup)
    (hmem : (k, e) ∈ c.entries) (hlive : e.is_expired now = false)
    (htop : ∀ kv ∈ c.entries, kv.2.is_expired now = false → kv ≠ (k, e) →
      entryLE (k, e) kv = false) :
    (k, e) ∈ (c.cleanup' now).entries := by
  have hentnodup : c.entries.Nodup := List.Nodup.of_map _ hnodup
  unfold IntelligentCache.cleanup'
  simp only []
  split_ifs with hth
  · simp only []
    set live := c.entries.filter (fun kv => ¬(kv.2.is_expired now)) with hlivedef
    set sorted := live.mergeSort entryLE with hsorteddef
    set t := live.length / 5 with htdef
    set victims := sorted.take t with hvicdef
    have hkelive : (k, e) ∈ live := by
      rw [hlivedef]
      refine List.mem_filter.mpr ⟨hmem, ?_⟩
      simp [hlive]
    have hperm := List.mergeSort_perm live entryLE
    have hsorted2 := List.sorted_mergeSort entryLE_trans
      entryLE_total live
    refine List.mem_filter.mpr ⟨hkelive, ?_⟩
    simp only [decide_eq_true_eq]
    intro hany
    obtain ⟨kv2, hkv2vic, hkv2key⟩ := List.any_eq_true.mp hany
    simp only [decide_eq_true_eq] at hkv2key
    have hkv2live : kv2 ∈ live :=
      hperm.mem_iff.mp ((List.take_sublist _ _).subset hkv2vic)
    have hkv2ent : kv2 ∈ c.entries := by
      rw [hlivedef] at hkv2live
      exact (List.filter_sublist _).subset hkv2live
    have hkv2eq : kv2 = (k, e) := mem_eq_of_keys_nodup hnodup hmem hkv2ent hkv2key
    rw [hkv2eq] at hkv2vic
    have hlivepos : 0 < live.length := List.length_pos_of_mem hkelive
    have ht_lt : t < sorted.length := by
      rw [hperm.length_eq, htdef]
      exact Nat.div_lt_self hlivepos (by norm_num)
    have hdropne : sorted.drop t ≠ [] := by
      intro hnil
      have hdl := List.length_drop t sorted
      rw [hnil] at hdl
      simp at hdl
      omega
    obtain ⟨y, hy⟩ := List.exists_mem_of_ne_nil _ hdropne
    have hpw : List.Pairwise (fun a b => entryLE a b = true)
        (sorted.take t ++ sorted.drop t) := by
      rw [List.take_append_drop]
      exact hsorted2
    have hLE : entryLE (k, e) y = true :=
      (List.pairwise_append.mp hpw).2.2 _ hkv2vic _ hy
    have hylive : y ∈ live := hperm.mem_iff.mp ((List.drop_sublist _ _).subset hy)
    have hyent : y ∈ c.entries := by
      rw [hlivedef] at hylive
      exact (List.filter_sublist _).subset hylive
    have hyexp : y.2.is_expired now = false := by
      rw [hlivedef] at hylive
      have := (List.mem_filter.mp hylive).2
      simpa using this
    have hlivenodup : live.Nodup := by
      rw [hlivedef]
      exact (List.filter_sublist _).nodup hentnodup
    have hsortednodup : sorted.Nodup := hperm.nodup_iff.mpr hlivenodup
    have hns : (List.take t sorted ++ List.drop t sorted).Nodup := by
      rw [List.take_append_drop]
      exact hsortednodup
    have hnodsplit := List.nodup_append.mp hns
    have hyne : y ≠ (k, e) := by
      intro hcontra
      exact hnodsplit.2.2 hkv2vic (hcontra ▸ hy)
    rw [htop y hyent hyexp hyne] at hLE
    exact Bool.false_ne_true hLE
  · simp only []
    refine List.mem_filter.mpr ⟨hmem, ?_⟩
    simp [hlive]

/-- C3 (counterexample): two concrete refutations of the claim as stated.
First, `set` can leave the store above `max_size`: with `max_size = 2` and
two live entries, the capacity cleanup computes `int(2 * 0.2) = 0` entries
to evict, removes nothing, and the insert leaves 3 > 2 entries.  Second,
the most recently accessed entry *can* be evicted: among five entries the
one with the greatest `last_access` (50) but `access_count` 0 sorts first
by `(access_count, last_access)` and is the one evicted. -/
theorem cache_eviction_counterexample :
    (2 < ((⟨[("n:a", ⟨"1", 0, 100, 0, 0⟩), ("n:b", ⟨"2", 0, 100, 0, 0⟩)],
          2, 0, 0, 0, 0⟩ :
        IntelligentCache String).set 0 "n" "c" "3" 100).entries.length) ∧
      entryGet ((⟨[("n:a", ⟨"1", 0, 100, 5, 1⟩), ("n:b", ⟨"2", 0, 100, 5, 2⟩),
              ("n:c", ⟨"3", 0, 100, 5, 3⟩), ("n:d", ⟨"4", 0, 100, 5, 4⟩),
              ("n:e", ⟨"5", 0, 100, 0, 50⟩)], 5, 0, 0, 0, 0⟩ :
            IntelligentCache String).set 50 "n" "f" "6" 100).entries
        "n:e" = none := by
  have hexp0 : ∀ (d : String) (ac : ℕ) (la : ℚ),
      (CacheEntry.mk d 0 100 ac la).is_expired (0 : ℚ) = false := by
    intro d ac la
    simp only [CacheEntry.is_expired, decide_eq_false_iff_not]
    norm_num
  have hexp50 : ∀ (d : String) (ac : ℕ) (la : ℚ),
      (CacheEntry.mk d 0 100 ac la).is_expired (50 : ℚ) = false := by
    intro d ac la
    simp only [CacheEntry.is_expired, decide_eq_false_iff_not]
    norm_num
  constructor
  · unfold IntelligentCache.set IntelligentCache.cleanup'
    simp [hexp0, entryInsert, entryUpdate, entryGet, generate_key,
      List.filter_cons]
  · obtain ⟨tl, hms⟩ := mergeSort_strict_min_head
      [("n:a", (⟨"1", 0, 100, 5, 1⟩ : CacheEntry String)),
       ("n:b", ⟨"2", 0, 100, 5, 2⟩), ("n:c", ⟨"3", 0, 100, 5, 3⟩),
       ("n:d", ⟨"4", 0, 100, 5, 4⟩), ("n:e", ⟨"5", 0, 100, 0, 50⟩)]
      ("n:e", ⟨"5", 0, 100, 0, 50⟩) (by simp)
      (by
        intro y hy hne
        fin_cases hy
        · decide
        · decide
        · decide
        · decide
        · exact absurd rfl hne)
    unfold IntelligentCache.set IntelligentCache.cleanup'
    simp [hexp50, hms, entryInsert, entryUpdate, entryGet, generate_key,
      List.filter_cons]

/-- C3 (amended): provided `max_size ≥ 5` (so the 20 % eviction count
`int(n * 0.2)` is nonzero at capacity) and the store currently holds at
most `max_size` entries (with distinct keys, as a Python dict guarantees),
`set` leaves the cache at no more than `max_size` entries: it first purges
all expired entries and then, if still over 80 % of capacity, evicts the
lowest-ranked fifth of the remaining entries ordered by ascending access
count then ascending last-access time; an unexpired entry that ranks
strictly highest in this order — not necessarily the most recently
accessed one — is never among those evicted. -/
theorem cache_set_capacity_and_eviction :
    (∀ (α : Type) (c : IntelligentCache α) (now : ℚ) (ns query : String)
        (v : α) (ttl : ℚ),
      5 ≤ c.max_size → (c.entries.map Prod.fst).Nodup →
      c.entries.length ≤ c.max_size →
      (c.set now ns query v ttl).entries.length ≤ c.max_size) ∧
      (∀ (α : Type) (c : IntelligentCache α) (now : ℚ) (k : String)
          (e : CacheEntry α),
        (c.entries.map Prod.fst).Nodup → (k, e) ∈ c.entries →
        e.is_expired now = false →
        (∀ kv ∈ c.entries, kv.2.is_expired now = false → kv ≠ (k, e) →
          entryLE (k, e) kv = false) →
        (k, e) ∈ (c.cleanup' now).entries) :=
  ⟨fun _ c now ns query v ttl hm hn hl =>
      set_length_le c now ns query v ttl hm hn hl,
   fun _ c now k e hn hm hl ht =>
      cleanup_keeps_top_ranked c now k e hn hm hl ht⟩

/-- Witness for C3 (amended) at concrete inputs: a `set` on a one-entry
store with `max_size = 5` stays within capacity, and the top-ranked entry
of a store at capacity survives its cleanup. -/
theorem cache_set_capacity_and_eviction_witness :
    (((⟨[("n:a", ⟨"1", 0, 100, 0, 0⟩)], 5, 0, 0, 0, 0⟩ :
        IntelligentCache String).set 0 "n" "b" "2" 100).entries.length ≤ 5) ∧
      ("n:a", (⟨"1", 0, 100, 0, 0⟩ : CacheEntry String)) ∈
        ((⟨[("n:a", ⟨"1", 0, 100, 0, 0⟩)], 5, 0, 0, 0, 0⟩ :
          IntelligentCache String).cleanup' 0).entries := by
  constructor
  · exact cache_set_capacity_and_eviction.1 String
      ⟨[("n:a", ⟨"1", 0, 100, 0, 0⟩)], 5, 0, 0, 0, 0⟩ 0 "n" "b" "2" 100
      (by norm_num) (by simp) (by simp)
  · refine cache_set_capacity_and_eviction.2 String
      ⟨[("n:a", ⟨"1", 0, 100, 0, 0⟩)], 5, 0, 0, 0, 0⟩ 0 "n:a"
      ⟨"1", 0, 100, 0, 0⟩ (by simp) (by simp) ?_ ?_
    · simp only [CacheEntry.is_expired, decide_eq_false_iff_not]
      norm_num
    · intro kv hkv hexp hne
      simp only [List.mem_singleton] at hkv
      exact absurd hkv hne

theorem toNat_ofNat_small (n : ℕ) (h1 : 65 ≤ n) (h2 : n ≤ 122) :
    (Char.ofNat n).toNat = n := by
  interval_cases n <;> decide

theorem pyCharUpper_idem (c : Char) :
    pyCharUpper (pyCharUpper c) = pyCharUpper c := by
  unfold pyCharUpper
  by_cases h : 97 ≤ c.toNat ∧ c.toNat ≤ 122
  · rw [if_pos h]
    have ht : (Char.ofNat (c.toNat - 32)).toNat = c.toNat - 32 :=
      toNat_ofNat_small _ (by omega) (by omega)
    rw [if_neg (by rw [ht]; omega)]
  · rw [if_neg h, if_neg h]

theorem pyIsSpace_pyCharUpper (c : Char) :
    pyIsSpace (pyCharUpper c) = pyIsSpace c := by
  unfold pyCharUpper
  by_cases h : 97 ≤ c.toNat ∧ c.toNat ≤ 122
  · rw [if_pos h]
    have ht : (Char.ofNat (c.toNat - 32)).toNat = c.toNat - 32 :=
      toNat_ofNat_small _ (by omega) (by omega)
    unfold pyIsSpace
    rw [ht]
    rw [decide_eq_false (by omega), decide_eq_false (by omega)]
  · rw [if_neg h]

theorem map_upper_idem (l : List Char) :
    (l.map pyCharUpper).map pyCharUpper = l.map pyCharUpper := by
  rw [List.map_map]
  exact List.map_congr_left (fun c _ => pyCharUpper_idem c)

theorem dropWhile_ws_map_upper (l : List Char) :
    (l.map pyCharUpper).dropWhile pyIsSpace =
      (l.dropWhile pyIsSpace).map pyCharUpper := by
  rw [List.dropWhile_map,
    show pyIsSpace ∘ pyCharUpper = pyIsSpace from funext pyIsSpace_pyCharUpper]

theorem rdropWhile_ws_map_upper (l : List Char) :
    (l.map pyCharUpper).rdropWhile pyIsSpace =
      (l.rdropWhile pyIsSpace).map pyCharUpper := by
  unfold List.rdropWhile
  rw [← List.map_reverse, dropWhile_ws_map_upper, List.map_reverse]

theorem stripList_map_upper (l : List Char) :
    pyStripList (l.map pyCharUpper) = (pyStripList l).map pyCharUpper := by
  unfold pyStripList
  rw [dropWhile_ws_map_upper, rdropWhile_ws_map_upper]

theorem stripList_idem (l : List Char) :
    pyStripList (pyStripList l) = pyStripList l := by
  unfold pyStripList
  set a := l.dropWhile pyIsSpace with ha
  set b := a.rdropWhile pyIsSpace with hb
  have hb_prefix : b <+: a := by
    rw [hb]
    exact List.rdropWhile_prefix _ _
  have hda : a.dropWhile pyIsSpace = a := by
    rw [ha]
    exact List.dropWhile_idempotent _ _
  have hdb : b.dropWhile pyIsSpace = b := by
    rw [List.dropWhile_eq_self_iff]
    intro hl
    have hlen : 0 < a.length := lt_of_lt_of_le hl hb_prefix.length_le
    have h0 : b[0] = a[0] := hb_prefix.getElem hl
    have h1 := List.dropWhile_eq_self_iff.mp hda hlen
    simp only [List.get_eq_getElem] at h1 ⊢
    rw [h0]
    exact h1
  have hrb : b.rdropWhile pyIsSpace = b := by
    rw [hb]
    exact List.rdropWhile_idempotent _ _
  rw [hdb, hrb]

theorem pyNormList_idem (l : List Char) :
    pyStripList ((pyStripList (l.map pyCharUpper)).map pyCharUpper) =
      pyStripList (l.map pyCharUpper) := by
  rw [← stripList_map_upper, map_upper_idem, stripList_idem]

theorem pyNorm_fix (s : String) :
    pyStrip (pyUpper (pyStrip (pyUpper s))) = pyStrip (pyUpper s) := by
  unfold pyStrip pyUpper
  simpa using congrArg String.mk (pyNormList_idem s.data)

theorem tableGet_some_mem (l : List (String × String)) (key v : String)
    (h : tableGet l key = some v) : (key, v) ∈ l := by
  induction l with
  | nil => simp [tableGet] at h
  | cons kv rest ih =>
      obtain ⟨k2, v2⟩ := kv
      by_cases hk : key = k2
      · simp only [tableGet, if_pos hk] at h
        injection h with h2
        rw [hk, ← h2]
        exact List.mem_cons_self _ _
      · simp only [tableGet, if_neg hk] at h
        exact List.mem_cons_of_mem _ (ih h)

theorem normalize_core_norm_fix (u : String)
    (hufix : pyStrip (pyUpper u) = u) :
    normalize_core (pyStrip (pyUpper (normalize_core u))) = normalize_core u := by
  cases hn : tableGet name_to_symbol u with
  | some v =>
      have hv := tableGet_some_mem _ _ _ hn
      unfold name_to_symbol at hv
      fin_cases hv <;> decide
  | none =>
      cases hc : tableGet crypto_mapping u with
      | some w =>
          have hw := tableGet_some_mem _ _ _ hc
          unfold crypto_mapping at hw
          fin_cases hw <;> decide
      | none =>
          have hcore : normalize_core u = u := by
            simp [normalize_core, hn, hc]
          rw [hcore, hufix]
          exact hcore

/-- C10: `normalize_symbol` is idempotent — for every string `s`,
`normalize_symbol (normalize_symbol s) = normalize_symbol s`; every output
of the name-to-ticker alias table and of the crypto-suffix table is a fixed
point of the function, and pass-through outputs are already uppercased and
stripped. -/
theorem normalize_symbol_idempotent (s : String) :
    normalize_symbol (normalize_symbol s) = normalize_symbol s := by
  unfold normalize_symbol
  exact normalize_core_norm_fix (pyStrip (pyUpper s)) (pyNorm_fix s)

/-- Witness for C10 at a concrete input covering the crypto-suffix path. -/
theorem normalize_symbol_idempotent_witness :
    normalize_symbol (normalize_symbol " bitcoin ") =
      normalize_symbol " bitcoin " :=
  normalize_symbol_idempotent " bitcoin "

/-- C2 (counterexample): the backoff branch and the minimum-interval branch
are *not* mutually exclusive.  With `min_request_interval = 8`, a last
request at t = 0 and `trigger_backoff(p, 60)` at t = 0, a call to
`wait_for_rate_limit p` at t = 5 returns at t = 63 — the backoff sleep to
t = 60 plus the remaining 3 s of the minimum interval (elapsed time is
measured at entry) — whereas the algorithm as claimed (step 2 an else of
step 1) would return at t = 60. -/
theorem wait_for_rate_limit_not_else_counterexample :
    (((⟨fun a => if a = "p" then some 0 else none, fun _ => none,
          8⟩ : SimpleCacheRL).trigger_backoff "p" 0 60).wait_for_rate_limit
        "p" 5).1 = 63 ∧
      (wait_for_slot_spec
        ((⟨fun a => if a = "p" then some 0 else none, fun _ => none,
          8⟩ : SimpleCacheRL).trigger_backoff "p" 0 60) "p" 5).1 = 60 ∧
      (63 : ℚ) ≠ 60 := by
  refine ⟨?_, ?_, by norm_num⟩
  · simp [SimpleCacheRL.trigger_backoff, SimpleCacheRL.wait_for_rate_limit]
    norm_num
  · simp [SimpleCacheRL.trigger_backoff, wait_for_slot_spec]
    norm_num

/-- C2 (amended): `wait_for_rate_limit` first blocks out an active backoff
window, and *additionally* (the two branches are cumulative, not an
if/else) blocks out the unexpired remainder of the minimum interval,
computed from the elapsed time since `last_request_time` measured at call
entry; the instant at which it returns is recorded as the new
`last_request_time`.  In particular, after `trigger_backoff(p, secs)` at
time `now`, a call within the window (at `now2 < now + secs`) returns at
`(now + secs) + max 0 (min_interval - (now2 - last))` — never before the
window elapses; and with no active backoff the call returns at
`now2 + max 0 (min_interval - (now2 - last))`. -/
theorem wait_for_rate_limit_cumulative (s : SimpleCacheRL) (api_name : String)
    (now secs now2 : ℚ) (h1 : now ≤ now2) (h2 : now2 < now + secs) :
    (((s.trigger_backoff api_name now secs).wait_for_rate_limit api_name
        now2).1 =
      (now + secs) +
        (match s.last_request_time api_name with
         | some last => max 0 (s.min_request_interval - (now2 - last))
         | none => 0)) ∧
      (((s.trigger_backoff api_name now secs).wait_for_rate_limit api_name
          now2).2.last_request_time api_name =
        some ((s.trigger_backoff api_name now secs).wait_for_rate_limit
          api_name now2).1) ∧
      (∀ s2 : SimpleCacheRL, s2.rate_limit_backoff api_name = none →
        (s2.wait_for_rate_limit api_name now2).1 =
          now2 +
            (match s2.last_request_time api_name with
             | some last => max 0 (s2.min_request_interval - (now2 - last))
             | none => 0)) := by
  refine ⟨?_, ?_, ?_⟩
  · unfold SimpleCacheRL.wait_for_rate_limit SimpleCacheRL.trigger_backoff
    cases hl : s.last_request_time api_name with
    | none =>
        simp only [hl, eq_self_iff_true, if_true]
        rw [if_pos h2]
        ring
    | some last =>
        simp only [hl, eq_self_iff_true, if_true]
        rw [if_pos h2]
        by_cases hmin : now2 - last < s.min_request_interval
        · rw [if_pos hmin, max_eq_right (by linarith)]
        · rw [if_neg hmin, max_eq_left (by linarith)]
          ring
  · unfold SimpleCacheRL.wait_for_rate_limit
    simp
  · intro s2 hb
    unfold SimpleCacheRL.wait_for_rate_limit
    rw [hb]
    cases hl : s2.last_request_time api_name with
    | none => simp
    | some last =>
        simp only []
        by_cases hmin : now2 - last < s2.min_request_interval
        · rw [if_pos hmin, max_eq_right (by linarith)]
        · rw [if_neg hmin, max_eq_left (by linarith)]
          ring

/-- C8 (counterexample): a successful (non-error-tagged) result of the
Alpha Vantage crypto path carries no `day_high` key at all — the optional
quote fields are not populated with defaults there — refuting the claim
that on every adapter success no quote field key is missing. -/
theorem quote_fields_missing_counterexample :
    (pyGet (get_stock_data_alphavantage (some "k") none "BITCOIN"
        ⟨true, 115000, 5, false, 0⟩ ([], [])).1 "error" = none) ∧
      (pyGet (get_stock_data_alphavantage (some "k") none "BITCOIN"
        ⟨true, 115000, 5, false, 0⟩ ([], [])).1 "day_high" = none) ∧
      (pyGet (get_stock_data_alphavantage (some "k") none "BITCOIN"
        ⟨true, 115000, 5, false, 0⟩ ([], [])).1 "current_price" =
        some (PyVal.num 115000)) := by
  refine ⟨?_, ?_, ?_⟩ <;> decide

/-- C8 (amended): when the Twelve Data upstream call itself succeeds
(HTTP 200, parseable body carrying a `close` or `price` field, no error
message, no exception), the returned quote populates every field:
`current_price` is the upstream close (falling back to `price`) — present
but not checked to be positive — `day_high`/`day_low`/`open_price`/
`previous_close` default to `current_price`, `volume` defaults to 0, and
`sector`/`industry` default to `"N/A"`, so no quote field key is missing;
results delegated to the Alpha Vantage fallback follow that adapter's
shapes instead, whose crypto path omits the day-range fields. -/
theorem twelve_quote_fields_populated (twelveKey alphaKey : Option String)
    (avCacheHit : Option PyDict) (symbol : String) (resp : TwelveResp)
    (avResp : AvCryptoResp) (avEquityPath : PyDict × List Req)
    (hs : resp.status = 200) (hj : resp.jsonOk = true)
    (hm : resp.hasMessage = false)
    (hp : ¬(resp.close = none ∧ resp.price = none)) (he : resp.exc = false) :
    (get_stock_data_twelve twelveKey alphaKey none avCacheHit symbol resp
        avResp avEquityPath).1 = twelveQuote (normalize_symbol symbol) resp ∧
      (pyGet (twelveQuote (normalize_symbol symbol) resp) "error" = none) ∧
      (pyGet (twelveQuote (normalize_symbol symbol) resp) "current_price" =
        some (PyVal.num (resp.close.getD (resp.price.getD 0)))) ∧
      (pyGet (twelveQuote (normalize_symbol symbol) resp) "day_high" =
        some (PyVal.num (resp.high.getD (resp.close.getD (resp.price.getD 0))))) ∧
      (pyGet (twelveQuote (normalize_symbol symbol) resp) "day_low" =
        some (PyVal.num (resp.low.getD (resp.close.getD (resp.price.getD 0))))) ∧
      (pyGet (twelveQuote (normalize_symbol symbol) resp) "open_price" =
        some (PyVal.num (resp.openPx.getD (resp.close.getD (resp.price.getD 0))))) ∧
      (pyGet (twelveQuote (normalize_symbol symbol) resp) "previous_close" =
        some (PyVal.num (resp.previous_close.getD (resp.close.getD (resp.price.getD 0))))) ∧
      (pyGet (twelveQuote (normalize_symbol symbol) resp) "volume" =
        some (PyVal.num (pyTrunc (resp.volume.getD 0) : ℚ))) ∧
      (pyGet (twelveQuote (normalize_symbol symbol) resp) "sector" =
        some (PyVal.str "N/A")) ∧
      (pyGet (twelveQuote (normalize_symbol symbol) resp) "industry" =
        some (PyVal.str "N/A")) := by
  constructor
  · unfold get_stock_data_twelve
    rw [if_neg (by simp [hs]), if_neg (by simp [hj]), if_neg (by simp [hm]),
      if_neg hp, if_neg (by simp [he])]
  · refine ⟨?_, ?_, ?_, ?_, ?_, ?_, ?_, ?_, ?_⟩ <;>
      simp [twelveQuote, pyGet]

/-- Witness for C8 (amended): a successful Twelve Data response with only a
close price populates every optional field with its default. -/
theorem twelve_quote_fields_populated_witness :
    (get_stock_data_twelve (some "tk") none none none "AAPL"
        ⟨200, true, false, some 250, none, none, none, none, none, none, false⟩
        ⟨false, 0, 0, false, 0⟩ ([], [])).1 =
      twelveQuote (normalize_symbol "AAPL")
        ⟨200, true, false, some 250, none, none, none, none, none, none, false⟩ ∧
      pyGet (twelveQuote (normalize_symbol "AAPL")
        ⟨200, true, false, some 250, none, none, none, none, none, none, false⟩)
        "day_high" = some (PyVal.num 250) := by
  have h := twelve_quote_fields_populated (some "tk") none none "AAPL"
    ⟨200, true, false, some 250, none, none, none, none, none, none, false⟩
    ⟨false, 0, 0, false, 0⟩ ([], []) rfl rfl rfl (by simp) rfl
  exact ⟨h.1, by simpa using h.2.2.2.1⟩

/-- Witness for C2 (amended) at the counterexample's numbers: the call at
t = 5 inside the [0, 60) backoff window returns at 60 + 3 = 63. -/
theorem wait_for_rate_limit_cumulative_witness :
    (((⟨fun a => if a = "p" then some 0 else none, fun _ => none,
          8⟩ : SimpleCacheRL).trigger_backoff "p" 0 60).wait_for_rate_limit
        "p" 5).1 = (0 + 60) + max 0 (8 - ((5 : ℚ) - 0)) := by
  have h := (wait_for_rate_limit_cumulative
    (⟨fun a => if a = "p" then some 0 else none, fun _ => none, 8⟩ :
      SimpleCacheRL) "p" 0 60 5 (by norm_num) (by norm_num)).1
  simpa using h
